import Mathlib

/-!
Shallow embedding of the VCAS protocol client pair of this repository:
the PyQt channel client (PyQtVChannels/v2k_channels.py), the viewer
client (vcas_viewer/core/vcas_client.py) and the mock server
(vcas_viewer/core/mock_vcas_server.py).

Python strings are modelled as `List Char`; Python dicts (which preserve
insertion order, overwrite in place on re-assignment and delete by key)
are modelled as ordered association lists over `List Char` keys.
Randomness, wall-clock time and socket objects are abstracted into
explicit parameters; everything else follows the source line by line.
-/

/-- ASCII whitespace test used to model the Python `str.strip` method. -/
def pyIsSpace (c : Char) : Bool :=
  c == ' ' || c == '\t' || c == '\n' || c == '\r' || c == '\x0b' || c == '\x0c'

/-- Model of the Python `str.strip()` method: drop whitespace from both ends. -/
def pyStrip (s : List Char) : List Char :=
  ((s.dropWhile pyIsSpace).reverse.dropWhile pyIsSpace).reverse

/-- Model of the Python `str.split(sep)` method with a one-character
separator: split on every occurrence, keeping empty segments
(so splitting the empty string yields one empty segment). -/
def pySplit (sep : Char) : List Char → List (List Char)
  | [] => [[]]
  | c :: rest =>
    let r := pySplit sep rest
    if c == sep then [] :: r
    else
      match r with
      | [] => [[c]]
      | seg :: segs => (c :: seg) :: segs

/-- Model of the Python `str.split(sep, 1)` method: split once at the first
occurrence of the separator; `none` when the separator does not occur. -/
def pySplitOnce (sep : Char) : List Char → Option (List Char × List Char)
  | [] => none
  | c :: rest =>
    if c == sep then some ([], rest)
    else
      match pySplitOnce sep rest with
      | none => none
      | some (l, r) => (some (c :: l, r))

/-- Model of the Python `sep.join(parts)` method. -/
def pyJoin (sep : List Char) : List (List Char) → List Char
  | [] => []
  | [x] => x
  | x :: y :: rest => x ++ sep ++ pyJoin sep (y :: rest)

/-- Membership of a character in a string, modelling the Python
`c in s` test. -/
def pyHasChar (c : Char) (s : List Char) : Bool :=
  s.contains c

/-- Ordered dictionary with string keys, modelling a Python `dict`:
insertion order is the list order. -/
abbrev PyDict (α : Type) := List (List Char × α)

/-- Model of Python `d[k] = v`: overwrite in place when the key is present,
otherwise append at the end. -/
def pySet {α : Type} (d : PyDict α) (k : List Char) (v : α) : PyDict α :=
  match d with
  | [] => [(k, v)]
  | (k₀, v₀) :: rest =>
    if k₀ = k then (k₀, v) :: rest else (k₀, v₀) :: pySet rest k v

/-- Model of Python `d.get(k)`: the value at the first matching key. -/
def pyGet {α : Type} (d : PyDict α) (k : List Char) : Option α :=
  match d with
  | [] => none
  | (k₀, v₀) :: rest => if k₀ = k then some v₀ else pyGet rest k

/-- Model of Python `d.get(k, default)`. -/
def pyGetD {α : Type} (d : PyDict α) (k : List Char) (dflt : α) : α :=
  (pyGet d k).getD dflt

/-- Model of Python `k in d`. -/
def pyHasKey {α : Type} (d : PyDict α) (k : List Char) : Bool :=
  (pyGet d k).isSome

/-- Model of Python `del d[k]`: remove the entry with the given key. -/
def pyDel {α : Type} (d : PyDict α) (k : List Char) : PyDict α :=
  match d with
  | [] => []
  | (k₀, v₀) :: rest => if k₀ = k then rest else (k₀, v₀) :: pyDel rest k

/-- Lexicographic comparison of strings by Unicode code point, as used by
the Python `sorted` builtin on strings. -/
def lexLe : List Char → List Char → Bool
  | [], _ => true
  | _ :: _, [] => false
  | a :: as, b :: bs =>
    if a.val < b.val then true
    else if b.val < a.val then false
    else lexLe as bs

/-- Stable insertion of a string into a sorted list, auxiliary to
`pySorted`. -/
def insertSorted (x : List Char) : List (List Char) → List (List Char)
  | [] => [x]
  | y :: ys => if lexLe x y then x :: y :: ys else y :: insertSorted x ys

/-- Model of the Python `sorted` builtin on lists of strings (insertion
sort; the output of any comparison sort under the total order `lexLe`). -/
def pySorted (l : List (List Char)) : List (List Char) :=
  l.foldr insertSorted []

/-- The apostrophe character, used in mock-server error message texts. -/
def quoteChar : Char := Char.ofNat 39

/-!
Embedding of PyQtVChannels/v2k_channels.py: the abstract text client
(AbstractTextServerQt) and the primary-dialect channel client
(ChannelServerQt).
-/

/-- Value-key aliases recognised by `ChannelServerQt.__normalize`
(the Python tuple is written as the membership test
`k in ("val", "value", "v")`). -/
def valueAliases : List (List Char) := ["val".data, "value".data, "v".data]

/-- First entry of the message whose key is a value alias, in dict
insertion order, mirroring the loop head of `ChannelServerQt.__normalize`. -/
def findValueAlias : PyDict (List Char) → Option (List Char × List Char)
  | [] => none
  | (k, v) :: rest =>
    if valueAliases.contains k then some (k, v) else findValueAlias rest

namespace ChannelServerQt

/-- Model of `ChannelServerQt.__normalize`: walk the message in insertion
order; at the first key among the value aliases, assign
`message["value"] = v`, then `del message[k]`, then break. -/
def normalize (message : PyDict (List Char)) : PyDict (List Char) :=
  match findValueAlias message with
  | none => message
  | some (k, v) => pyDel (pySet message "value".data v) k

/-- Token loop of `ChannelServerQt._decode`: skip empty tokens; unpack
`k, v = token.split(":")`, which raises ValueError (modelled as `.error`
carrying the offending token) unless the split has exactly two parts. -/
def decodeTokens : List (List Char) → PyDict (List Char) →
    Except (List Char) (PyDict (List Char))
  | [], respDict => .ok respDict
  | token :: rest, respDict =>
    if token = [] then decodeTokens rest respDict
    else
      match pySplit ':' token with
      | [k, v] => decodeTokens rest (pySet respDict k v)
      | _ => .error token

/-- Model of `ChannelServerQt._decode`: split the line on the pipe
character, build the dict by the token loop, then normalize value-key
aliases. A ValueError raised by the token loop propagates. -/
def decode (data : List Char) : Except (List Char) (PyDict (List Char)) :=
  match decodeTokens (pySplit '|' data) [] with
  | .ok respDict => .ok (normalize respDict)
  | .error e => .error e

/-- Model of `ChannelServerQt._encode`: join the key-value tokens with
pipes and append a newline. -/
def encode (message : PyDict (List Char)) : List Char :=
  pyJoin ['|'] (message.map fun p => p.1 ++ [':'] ++ p.2) ++ ['\n']

/-- Wire line produced by `ChannelServerQt._subscribe`, which sends the
message with keys method and name through `_encode`. -/
def subscribeLine (name : List Char) : List Char :=
  encode [("method".data, "subscribe".data), ("name".data, name)]

end ChannelServerQt

/-- Per-channel subscription state held in `subsc_map`. The input mapper
supplied at subscription time is kept abstract (message to stored value);
the source also parses the server time field with strptime, modelled here
by storing the raw field. -/
structure V2kChannel where
  inMapper : PyDict (List Char) → List Char
  value : Option (List Char)
  localTime : Option Nat
  serverTime : Option (List Char)

/-- Model of `Channel._handler`: apply the input mapper, stamp the local
receipt time and store the (optional) server-reported time field. -/
def channelHandler (now : Nat) (ch : V2kChannel) (message : PyDict (List Char)) :
    V2kChannel :=
  { ch with
    value := some (ch.inMapper message)
    localTime := some now
    serverTime := pyGet message "time".data }

/-- Model of `AbstractTextServerQt._notify`: read the name field; a
missing or empty name is falsy in Python, so the message is dropped;
otherwise `subsc_map[name]` either dispatches to the channel or raises
KeyError (modelled as `.error` carrying the unknown name). -/
def notify (now : Nat) (subscMap : PyDict V2kChannel)
    (message : PyDict (List Char)) : Except (List Char) (PyDict V2kChannel) :=
  match pyGet message "name".data with
  | none => .ok subscMap
  | some name =>
    if name = [] then .ok subscMap
    else
      match pyGet subscMap name with
      | some channel => .ok (pySet subscMap name (channelHandler now channel message))
      | none => .error name

/-- Delay update performed by `AbstractTextServerQt._error_handler` on a
connection failure with the socket in the unconnected state: the current
delay is used for the scheduled reconnect, then doubled while below 300. -/
def errorDelayStep (delay : Nat) : Nat :=
  if delay < 300 then delay * 2 else delay

/-- Backoff delay held after n consecutive connection failures, starting
from the initial delay of 1 set in `AbstractTextServerQt.__init__`. -/
def delayAfterFailures : Nat → Nat
  | 0 => 1
  | n + 1 => errorDelayStep (delayAfterFailures n)

/-- Connection-facing state of `AbstractTextServerQt`: the connected flag,
the backoff delay and the subscription registry keys in insertion order. -/
structure V2kState where
  isConnected : Bool
  delay : Nat
  subscNames : List (List Char)

/-- State at client construction: disconnected, delay 1, empty registry. -/
def V2kState.init : V2kState := ⟨false, 1, []⟩

/-- Socket events handled by `AbstractTextServerQt`, plus the public
`get_channel` registration call (with the mapper pair elided: only the
registry key matters for the wire traffic). -/
inductive V2kEvent
  | connected
  | disconnected
  | socketError
  | getChannel (name : List Char)

/-- One event step of the client, returning the new state and the wire
lines sent during the step. `connected` mirrors `_connected_handler`
(set the flag, reset the delay, replay one subscribe per registry entry
in order); `disconnected` mirrors `_disconnected_handler`; `socketError`
mirrors `_error_handler`; `getChannel` mirrors `get_channel` (register
unknown nonempty names, subscribing at once only when connected). -/
def v2kStep (st : V2kState) : V2kEvent → V2kState × List (List Char)
  | .connected =>
    ({ st with isConnected := true, delay := 1 },
     st.subscNames.map ChannelServerQt.subscribeLine)
  | .disconnected => ({ st with isConnected := false }, [])
  | .socketError =>
    ({ st with isConnected := false, delay := errorDelayStep st.delay }, [])
  | .getChannel name =>
    if name = [] then (st, [])
    else if st.subscNames.contains name then (st, [])
    else
      ({ st with subscNames := st.subscNames ++ [name] },
       if st.isConnected then [ChannelServerQt.subscribeLine name] else [])

/-- Run a sequence of events, concatenating the sent wire lines. -/
def v2kRun (st : V2kState) : List V2kEvent → V2kState × List (List Char)
  | [] => (st, [])
  | e :: es =>
    let (st1, out1) := v2kStep st e
    let (st2, out2) := v2kRun st1 es
    (st2, out1 ++ out2)

/-!
Frame readers: `AbstractTextServerQt._read_handler` (v2k_channels.py) and
`VCASClient._process_buffer` (vcas_client.py). Both accumulate incoming
bytes and repeatedly cut at the first newline; the v2k loop runs only
while the first newline sits at a positive index (`while pos > 0`), the
viewer loop runs while any newline is present. At the character level the
UTF-8 decode of a segment is the identity.
-/

/-- Model of the read loop of `AbstractTextServerQt._read_handler`:
`pos = ibuffer.indexOf("\n"); while pos > 0: emit ibuffer.left(pos);
ibuffer.remove(0, pos + 1)`. Segments are handed to `_decode` untrimmed. -/
def v2kReadLoop (buf : List Char) : List (List Char) × List Char :=
  if h : pyHasChar '\n' buf ∧ 0 < buf.indexOf '\n' then
    let pos := buf.indexOf '\n'
    let tmp := buf.take pos
    let rest := buf.drop (pos + 1)
    let (msgs, leftover) := v2kReadLoop rest
    (tmp :: msgs, leftover)
  else ([], buf)
termination_by buf.length
decreasing_by
  have hm : '\n' ∈ buf := by
    have := h.1
    simpa [pyHasChar] using this
  have hlt : buf.indexOf '\n' < buf.length := List.indexOf_lt_length.mpr hm
  simp only [List.length_drop]
  omega

/-- Model of the loop of `VCASClient._process_buffer`: while a newline is
in the buffer, cut at the first one; a segment of positive size is
decoded, stripped, and processed when still nonempty. The emitted list
holds the stripped lines handed to `_process_message`. -/
def vcasProcessBuffer (buf : List Char) : List (List Char) × List Char :=
  if h : pyHasChar '\n' buf then
    let newlinePos := buf.indexOf '\n'
    let lineData := buf.take newlinePos
    let rest := buf.drop (newlinePos + 1)
    let (msgs, leftover) := vcasProcessBuffer rest
    let line := pyStrip lineData
    (if lineData ≠ [] ∧ line ≠ [] then line :: msgs else msgs, leftover)
  else ([], buf)
termination_by buf.length
decreasing_by
  have hm : '\n' ∈ buf := by
    simpa [pyHasChar] using h
  have hlt : buf.indexOf '\n' < buf.length := List.indexOf_lt_length.mpr hm
  simp only [List.length_drop]
  omega

/-- Modelled from the spec (section 4.2, Frame Reader algorithm):
repeatedly scan for the first newline byte, emit everything before it as
one segment, remove the consumed prefix including the newline, stop when
no newline remains. Returns the emitted segments and the final leftover.
This definition follows the spec words and is compared with the code
embeddings above. -/
def specFrameSegments : List Char → List (List Char) × List Char
  | [] => ([], [])
  | c :: cs =>
    let (segs, rest) := specFrameSegments cs
    if c = '\n' then ([] :: segs, rest)
    else
      match segs with
      | [] => ([], c :: rest)
      | s :: ss => ((c :: s) :: ss, rest)

/-!
Embedding of vcas_viewer/core/vcas_client.py (VCASClient).
-/

/-- Pair loop shared by `VCASClient._process_message` and
`MockVCASServer._process_command`: for each pipe-separated token holding a
colon, split once at the first colon and assign the stripped key to the
stripped value. Tokens without a colon are skipped. -/
def pyParsePairs : List (List Char) → PyDict (List Char) → PyDict (List Char)
  | [], msgDict => msgDict
  | pair :: rest, msgDict =>
    match pySplitOnce ':' pair with
    | some (key, value) => pyParsePairs rest (pySet msgDict (pyStrip key) (pyStrip value))
    | none => pyParsePairs rest msgDict

namespace VCASClient

/-- Parsing stage of `VCASClient._process_message`: a line with no colon
is ignored (empty mapping); otherwise split on pipes and build the dict
with the pair loop. The surrounding try block makes this total. -/
def processMessageDict (message : List Char) : PyDict (List Char) :=
  if pyHasChar ':' message = false then []
  else pyParsePairs (pySplit '|' message) []

/-- Model of `VCASClient._channels_changed`: report a change when the
lengths differ, otherwise when the sorted lists differ. -/
def channelsChanged (channelsList newChannels : List (List Char)) : Bool :=
  if channelsList.length ≠ newChannels.length then true
  else decide (pySorted channelsList ≠ pySorted newChannels)

/-- Channel-list parsing in `VCASClient._handle_channels_list`:
`[ch.strip() for ch in val.split(",") if ch.strip()]`. -/
def parseChannels (val : List Char) : List (List Char) :=
  ((pySplit ',' val).map pyStrip).filter (fun ch => ch ≠ [])

/-- Model of `VCASClient._handle_channels_list`: read the val field; when
it is nonempty and not the literal none, parse the channel list and, only
when `_channels_changed` reports a change, store it and emit the
channels_updated signal. Returns (signal emitted, stored list after). -/
def handleChannelsList (channelsList : List (List Char))
    (msgDict : PyDict (List Char)) : Bool × List (List Char) :=
  let val := pyGetD msgDict "val".data []
  if val ≠ [] ∧ val ≠ "none".data then
    let channels := parseChannels val
    if channelsChanged channelsList channels then (true, channels)
    else (false, channelsList)
  else (false, channelsList)

/-- Payload of the channel_history_updated signal as far as the history
claims are concerned: the channel name and the two split sequences (the
emitted dict also carries the remaining response fields unchanged). -/
structure HistoryData where
  name : List Char
  timestamps : List (List Char)
  values : List (List Char)
  deriving DecidableEq, Repr

/-- Model of `VCASClient._handle_channel_history`: with a nonempty name,
split the timestamps and values fields on commas when both are nonempty
(both empty lists otherwise) and emit the result; the source also caches
the same payload under the name_duration key. No response without a name
field is emitted. -/
def handleChannelHistory (msgDict : PyDict (List Char)) : Option HistoryData :=
  let channelName := pyGetD msgDict "name".data []
  if channelName ≠ [] then
    let timestampsStr := pyGetD msgDict "timestamps".data []
    let valuesStr := pyGetD msgDict "values".data []
    if timestampsStr ≠ [] ∧ valuesStr ≠ [] then
      some ⟨channelName, pySplit ',' timestampsStr, pySplit ',' valuesStr⟩
    else
      some ⟨channelName, [], []⟩
  else none

/-- Wire line built by `VCASClient._send_command`: name and method tokens
followed by the extra keyword arguments, pipe-joined with a newline. -/
def sendCommandLine (channelName method : List Char)
    (extra : PyDict (List Char)) : List Char :=
  pyJoin ['|'] (("name".data ++ [':'] ++ channelName) ::
    ("method".data ++ [':'] ++ method) ::
    extra.map fun p => p.1 ++ [':'] ++ p.2) ++ ['\n']

/-- Outcome of one `VCASClient.get_channel_info` call: the payload emitted
through channel_info_updated, the wire lines written to the socket, and
the Python return value. -/
structure GetInfoOut where
  emitted : Option (PyDict (List Char))
  sent : List (List Char)
  ret : PyDict (List Char)
  deriving DecidableEq

/-- Model of `VCASClient.get_channel_info`: nothing happens when
disconnected or for an empty name; a cached name is re-emitted from the
cache with no wire traffic; otherwise one getfull command is sent. The
cache itself is never modified by this call. -/
def getChannelInfo (isConnected : Bool) (cache : PyDict (PyDict (List Char)))
    (channelName : List Char) : GetInfoOut :=
  if isConnected = false ∨ channelName = [] then ⟨none, [], []⟩
  else
    match pyGet cache channelName with
    | some cachedInfo => ⟨some cachedInfo, [], cachedInfo⟩
    | none => ⟨none, [sendCommandLine channelName "getfull".data []], []⟩

/-- Model of `VCASClient.clear_cache` on the channel-info cache: the cache
is emptied (the history cache, stored list and multiple-request state are
cleared alongside in the source). -/
def clearCache (cache : PyDict (PyDict (List Char))) : PyDict (PyDict (List Char)) :=
  []

end VCASClient

/-!
Embedding of vcas_viewer/core/mock_vcas_server.py (MockVCASServer).
Wall-clock timestamps and the random draws of the value-generation engine
enter through an explicit environment.
-/

/-- Abstracted nondeterministic inputs of one mock-server command:
the formatted current time, the random value generator of
`_generate_realistic_value` (channel name and units to value), the
history sample synthesis of `_get_channel_history` (timestamp per index,
value per index from the current value) and the text of an int conversion
exception. -/
structure MockEnv where
  timeStr : List Char
  genValue : List Char → List Char → List Char
  histTime : Nat → List Char
  histValue : Nat → List Char → List Char
  intErrorText : List Char

/-- Catalog state `channels_data`: the flat channel list and the per-channel
detail dicts (keys type, units, descr, val, host, port). -/
structure MockCatalog where
  list : List (List Char)
  details : PyDict (PyDict (List Char))

/-- Result of one processed command: the reply string returned to the
command loop (empty means success with no reply body), the catalog after
the command, the subscription set of the issuing client, and any update
messages pushed directly to its socket. -/
structure MockReply where
  response : List Char
  catalog : MockCatalog
  subs : List (List Char)
  pushed : List (List Char)

namespace MockVCASServer

/-- Model of `MockVCASServer._error_response`. -/
def errorResponse (message : List Char) : List Char :=
  "value:error|descr:".data ++ message ++ ['\n']

/-- Error text used by the unknown-channel branches, with the channel
name in single quotes. -/
def notFoundText (channelName : List Char) : List Char :=
  "Channel ".data ++ [quoteChar] ++ channelName ++ [quoteChar] ++ " not found".data

/-- Model of `MockVCASServer._get_channels_list`: the comma-joined
channel list. -/
def getChannelsList (catalog : MockCatalog) : List Char :=
  "name:ChannelsList|val:".data ++ pyJoin [','] catalog.list ++ ['\n']

/-- Model of `MockVCASServer._get_channel_info`: the full descriptor for a
known channel, the generic error response otherwise. -/
def getChannelInfoResp (catalog : MockCatalog) (channelName : List Char) : List Char :=
  match pyGet catalog.details channelName with
  | some info =>
    pyJoin ['|'] (("name".data ++ [':'] ++ channelName) ::
      info.map fun p => p.1 ++ [':'] ++ p.2) ++ ['\n']
  | none => errorResponse (notFoundText channelName)

/-- Current-value update line shared by `_get_channel_value`, the
subscribe branch and `_notify_subscribed_clients`. -/
def valueLine (env : MockEnv) (channelName : List Char)
    (info : PyDict (List Char)) : List Char :=
  "name".data ++ [':'] ++ channelName ++ "|time".data ++ [':'] ++ env.timeStr ++
    "|val".data ++ [':'] ++ pyGetD info "val".data [] ++ ['\n']

/-- Model of `MockVCASServer._get_channel_value`. -/
def getChannelValue (env : MockEnv) (catalog : MockCatalog)
    (channelName : List Char) : List Char :=
  match pyGet catalog.details channelName with
  | some info => valueLine env channelName info
  | none => errorResponse (notFoundText channelName)

/-- Model of `MockVCASServer._set_channel_value`: for a known channel
overwrite the val field with the supplied literal when its strip is
nonempty, otherwise regenerate it through `_update_single_channel_value`
(abstracted as the environment generator applied to the stored units);
reply empty. Unknown channels get the generic error and no catalog
change. -/
def setChannelValue (env : MockEnv) (catalog : MockCatalog)
    (channelName value : List Char) : List Char × MockCatalog :=
  match pyGet catalog.details channelName with
  | some info =>
    let newInfo :=
      if pyStrip value ≠ [] then pySet info "val".data value
      else pySet info "val".data (env.genValue channelName (pyGetD info "units".data []))
    ([], { catalog with details := pySet catalog.details channelName newInfo })
  | none => (errorResponse (notFoundText channelName), catalog)

/-- Digit run of a decimal literal, auxiliary to `pyIntParse`. -/
def digitsValue : List Char → Nat → Option Nat
  | [], acc => some acc
  | c :: cs, acc =>
    if c.isDigit then digitsValue cs (acc * 10 + (c.toNat - 48)) else none

/-- Model of the Python `int(str)` conversion: optional surrounding
whitespace, optional sign, nonempty digit run; `none` models the raised
ValueError. -/
def pyIntParse (s : List Char) : Option Int :=
  let t := pyStrip s
  match t with
  | '-' :: ds => if ds = [] then none else (digitsValue ds 0).map fun n => -(n : Int)
  | '+' :: ds => if ds = [] then none else (digitsValue ds 0).map fun n => (n : Int)
  | ds => if ds = [] then none else (digitsValue ds 0).map fun n => (n : Int)

/-- Model of `MockVCASServer._get_channel_history`: for a known channel,
synthesize duration-many one-second-spaced samples (timestamps and noisy
values through the environment) and reply with the comma-joined fields; a
failing int conversion of the duration is caught by the outer handler of
`_process_command`, which replies with a command processing error. Unknown
channels get the generic error response. -/
def getChannelHistory (env : MockEnv) (catalog : MockCatalog)
    (channelName duration : List Char) : List Char :=
  match pyGet catalog.details channelName with
  | some info =>
    match pyIntParse duration with
    | some d =>
      let n := d.toNat
      let timestamps := (List.range n).map env.histTime
      let values := (List.range n).map fun i => env.histValue i (pyGetD info "val".data [])
      pyJoin ['|'] ["name".data ++ [':'] ++ channelName,
        "method:gethistory".data,
        "duration".data ++ [':'] ++ duration,
        "timestamps".data ++ [':'] ++ pyJoin [','] timestamps,
        "values".data ++ [':'] ++ pyJoin [','] values] ++ ['\n']
    | none => errorResponse ("Command processing error: ".data ++ env.intErrorText)
  | none => errorResponse (notFoundText channelName)

/-- Subscribe branch of `MockVCASServer._process_command`: a name not yet
in the subscription set of this client is added, and for a known channel
one current-value update is pushed to the socket at once; the reply is
empty in every case. -/
def subscribeChannel (env : MockEnv) (catalog : MockCatalog)
    (subs : List (List Char)) (channelName : List Char) :
    List Char × List (List Char) × List (List Char) :=
  if subs.contains channelName then ([], subs, [])
  else
    let pushed :=
      match pyGet catalog.details channelName with
      | some info => [valueLine env channelName info]
      | none => []
    ([], subs ++ [channelName], pushed)

/-- Dispatch table of `MockVCASServer._process_command` after parsing,
with the method, name, val and duration fields taken from the command
dict (Python truthiness makes an empty name fall through to the unknown
method error). -/
def dispatchCommand (env : MockEnv) (catalog : MockCatalog)
    (subs : List (List Char)) (method channelName value duration : List Char) :
    MockReply :=
  if method = "get".data ∧ channelName = "ChannelsList".data then
    ⟨getChannelsList catalog, catalog, subs, []⟩
  else if method = "getfull".data ∧ channelName ≠ [] then
    ⟨getChannelInfoResp catalog channelName, catalog, subs, []⟩
  else if method = "get".data ∧ channelName ≠ [] then
    ⟨getChannelValue env catalog channelName, catalog, subs, []⟩
  else if method = "set".data ∧ channelName ≠ [] then
    let (resp, catalog2) := setChannelValue env catalog channelName value
    ⟨resp, catalog2, subs, []⟩
  else if method = "gethistory".data ∧ channelName ≠ [] then
    ⟨getChannelHistory env catalog channelName duration, catalog, subs, []⟩
  else if method = "subscribe".data ∧ channelName ≠ [] then
    let (resp, subs2, pushed) := subscribeChannel env catalog subs channelName
    ⟨resp, catalog, subs2, pushed⟩
  else
    ⟨errorResponse ("Unknown method: ".data ++ method), catalog, subs, []⟩

/-- Model of `MockVCASServer._process_command`: reject lines without a
colon, parse the pipe-separated pairs (same loop as the client), then
dispatch on the method and name fields with the val and duration
defaults. -/
def processCommand (env : MockEnv) (catalog : MockCatalog)
    (subs : List (List Char)) (command : List Char) : MockReply :=
  if pyHasChar ':' command = false then
    ⟨errorResponse "Invalid command format".data, catalog, subs, []⟩
  else
    let cmdDict := pyParsePairs (pySplit '|' command) []
    dispatchCommand env catalog subs (pyGetD cmdDict "method".data [])
      (pyGetD cmdDict "name".data []) (pyGetD cmdDict "val".data [])
      (pyGetD cmdDict "duration".data "300".data)

end MockVCASServer

/-- Sample environment used to evaluate the mock server at concrete
commands. -/
def mockEnvSample : MockEnv :=
  ⟨"T".data, fun _ _ => "9.99".data, fun _ => "ts".data, fun _ v => v, "bad".data⟩

/-- Sample one-channel catalog used to evaluate the mock server at
concrete commands. -/
def mockCatalogSample : MockCatalog :=
  ⟨["TEST/A".data],
   [("TEST/A".data,
     [("type".data, "rw".data), ("units".data, "V".data), ("val".data, "1.0".data)])]⟩

/-!
Helper lemmas.
-/

theorem length_insertSorted (x : List Char) (l : List (List Char)) :
    (insertSorted x l).length = l.length + 1 := by
  induction l with
  | nil => rfl
  | cons y ys ih =>
    simp only [insertSorted]
    split <;> simp [ih]

theorem length_pySorted (l : List (List Char)) :
    (pySorted l).length = l.length := by
  induction l with
  | nil => rfl
  | cons x xs ih =>
    simp only [pySorted, List.foldr, length_insertSorted, List.length_cons]
    exact congrArg (· + 1) ih

theorem specFrameSegments_no_newline {buf : List Char} (h : '\n' ∉ buf) :
    specFrameSegments buf = ([], buf) := by
  induction buf with
  | nil => rfl
  | cons c cs ih =>
    have hc : c ≠ '\n' := fun hc => h (hc ▸ List.mem_cons_self c cs)
    have hcs : '\n' ∉ cs := fun hm => h (List.mem_cons_of_mem c hm)
    simp only [specFrameSegments, ih hcs, if_neg hc]

theorem specFrameSegments_cut {buf : List Char} (h : '\n' ∈ buf) :
    specFrameSegments buf =
      (buf.take (buf.indexOf '\n') ::
        (specFrameSegments (buf.drop (buf.indexOf '\n' + 1))).1,
       (specFrameSegments (buf.drop (buf.indexOf '\n' + 1))).2) := by
  induction buf with
  | nil => cases h
  | cons c cs ih =>
    by_cases hc : c = '\n'
    · subst hc
      simp [specFrameSegments, List.indexOf_cons_self]
    · have hcs : '\n' ∈ cs := by
        cases List.mem_cons.mp h with
        | inl h0 => exact absurd h0.symm hc
        | inr h0 => exact h0
      have hidx : (c :: cs).indexOf '\n' = cs.indexOf '\n' + 1 := by
        simp [List.indexOf_cons, hc]
      rw [hidx]
      simp only [specFrameSegments, ih hcs, List.take_succ_cons, List.drop_succ_cons,
        if_neg hc]

theorem specFrameSegments_leftover_no_newline (buf : List Char) :
    '\n' ∉ (specFrameSegments buf).2 := by
  induction buf with
  | nil => simp [specFrameSegments]
  | cons c cs ih =>
    by_cases hc : c = '\n'
    · subst hc
      simpa [specFrameSegments] using ih
    · simp only [specFrameSegments, if_neg hc]
      cases hs : (specFrameSegments cs).1 with
      | nil =>
        simp only [hs] at ih ⊢
        intro hmem
        cases List.mem_cons.mp hmem with
        | inl h0 => exact hc h0.symm
        | inr h0 => exact ih h0
      | cons s ss => simpa [hs] using ih

theorem pyHasChar_eq_false_iff (c : Char) (s : List Char) :
    pyHasChar c s = false ↔ c ∉ s := by
  simp [pyHasChar]

theorem pyStrip_nil : pyStrip [] = [] := rfl

theorem decodeTokens_isOk (tokens : List (List Char)) (respDict : PyDict (List Char))
    (h : ∀ t ∈ tokens, t ≠ [] → (pySplit ':' t).length = 2) :
    (ChannelServerQt.decodeTokens tokens respDict).isOk = true := by
  induction tokens generalizing respDict with
  | nil => rfl
  | cons t ts ih =>
    by_cases ht : t = []
    · rw [ChannelServerQt.decodeTokens, if_pos ht]
      exact ih respDict fun u hu => h u (List.mem_cons_of_mem t hu)
    · have h2 : (pySplit ':' t).length = 2 := h t (List.mem_cons_self t ts) ht
      obtain ⟨k, v, hkv⟩ : ∃ k v, pySplit ':' t = [k, v] := by
        match hs : pySplit ':' t with
        | [] => rw [hs] at h2; cases h2
        | [a] => rw [hs] at h2; cases h2
        | [a, b] => exact ⟨a, b, rfl⟩
        | a :: b :: c :: rest => rw [hs] at h2; simp at h2
      rw [ChannelServerQt.decodeTokens, if_neg ht, hkv]
      exact ih _ fun u hu => h u (List.mem_cons_of_mem t hu)

theorem pySplitOnce_eq_none_of_no_sep (sep : Char) (s : List Char)
    (h : pyHasChar sep s = false) : pySplitOnce sep s = none := by
  induction s with
  | nil => rfl
  | cons c cs ih =>
    rw [pyHasChar_eq_false_iff] at h
    have hc : (c == sep) = false := by
      cases hbc : c == sep
      · rfl
      · have hcsep : c = sep := by simpa using hbc
        exact absurd (hcsep ▸ List.mem_cons_self c cs) h
    have hcs : pyHasChar sep cs = false := by
      rw [pyHasChar_eq_false_iff]
      exact fun hm => h (List.mem_cons_of_mem c hm)
    rw [pySplitOnce, if_neg (by simp [hc]), ih hcs]

theorem channelsChanged_true_iff (a b : List (List Char)) :
    VCASClient.channelsChanged a b = true ↔ pySorted a ≠ pySorted b := by
  unfold VCASClient.channelsChanged
  by_cases hlen : a.length ≠ b.length
  · rw [if_pos hlen]
    constructor
    · intro _ heq
      exact hlen (by rw [← length_pySorted a, ← length_pySorted b, heq])
    · intro _
      rfl
  · rw [if_neg hlen]
    exact decide_eq_true_iff

/-!
Claim theorems.
-/

/-- C1 counterexample: dispatching a decoded message whose name field is
not a channel in the (empty) subscription registry does not drop the
message silently: `subsc_map[name]` raises a KeyError that escapes the
dispatch boundary of `_notify`, refuting the claim at this input (the
registry itself is unchanged). -/
theorem notify_unknown_channel_raises :
    notify 0 [] [("name".data, "X".data)] = .error "X".data := rfl

/-- C1 amended: a decoded message with no name field, or with an empty
(falsy) name, is dropped silently with the registry unchanged; a message
whose nonempty name is not in the registry makes `_notify` raise a
KeyError (modelled as the `.error` result) instead of being dropped. -/
theorem notify_dispatch_behaviour (now : Nat) (subscMap : PyDict V2kChannel)
    (message : PyDict (List Char)) :
    (pyGet message "name".data = none → notify now subscMap message = .ok subscMap) ∧
    (pyGet message "name".data = some [] → notify now subscMap message = .ok subscMap) ∧
    (∀ n, pyGet message "name".data = some n → n ≠ [] → pyGet subscMap n = none →
      notify now subscMap message = .error n) := by
  refine ⟨fun h => ?_, fun h => ?_, fun n h hn hm => ?_⟩
  · rw [notify, h]
  · simp [notify, h]
  · simp [notify, h, hn, hm]

/-- C1 witness: the theorem applied at concrete inputs. -/
theorem notify_dispatch_behaviour_witness :
    notify 0 [] [("other".data, "1".data)] = .ok [] ∧
    notify 0 [] [("name".data, "Y".data)] = .error "Y".data :=
  ⟨(notify_dispatch_behaviour 0 [] [("other".data, "1".data)]).1 rfl,
   (notify_dispatch_behaviour 0 [] [("name".data, "Y".data)]).2.2
     "Y".data rfl (by decide) rfl⟩

/-- C2 counterexample: after 9 consecutive connection failures the stored
backoff delay (the delay the next reconnect would be scheduled with) is
512 seconds, exceeding the claimed cap of 300. -/
theorem backoff_exceeds_300 :
    delayAfterFailures 9 = 512 ∧ ¬ delayAfterFailures 9 ≤ 300 := by decide

/-- C2 amended: starting from 1 second the backoff delay doubles on each
consecutive connection failure while it is below 300, so after n failures
it equals `min (2 ^ n) 512` — the sequence 1,2,4,...,256,512 capped at
512 (not 300) — and one successful connect resets it to 1. -/
theorem backoff_doubling_cap_512_reset :
    (∀ n, delayAfterFailures n = min (2 ^ n) 512) ∧
    (∀ st : V2kState, (v2kStep st .connected).1.delay = 1) := by
  constructor
  · intro n
    induction n with
    | zero => rfl
    | succ n ih =>
      have h1 : 1 ≤ (2 : Nat) ^ n := Nat.one_le_two_pow
      have hpow : (2 : Nat) ^ (n + 1) = 2 ^ n * 2 := by rw [pow_succ]
      rcases le_or_lt n 8 with h | h
      · have hle : (2 : Nat) ^ n ≤ 256 := by
          calc (2 : Nat) ^ n ≤ 2 ^ 8 := Nat.pow_le_pow_right (by norm_num) h
          _ = 256 := by norm_num
        rw [delayAfterFailures, ih, errorDelayStep]
        rw [if_pos (by omega)]
        omega
      · have hge : 512 ≤ (2 : Nat) ^ n := by
          calc (512 : Nat) = 2 ^ 9 := by norm_num
          _ ≤ 2 ^ n := Nat.pow_le_pow_right (by norm_num) h
        rw [delayAfterFailures, ih, errorDelayStep]
        rw [if_neg (by omega)]
        omega
  · intro st
    rfl

/-- C3: decoding the three single-alias lines through
`ChannelServerQt._decode`. The claim (all three normalize to the single
mapping with the canonical value key) holds for the val and v aliases but
fails for the line whose key is already value: `__normalize` assigns
`message["value"] = v` and then executes `del message[k]` with k equal to
value, deleting the canonical key it just wrote, so the result is the
empty mapping. This evaluates the code at the failing input of the
recorded bug. -/
theorem decode_alias_normalization :
    ChannelServerQt.decode "val:5".data = .ok [("value".data, "5".data)] ∧
    ChannelServerQt.decode "v:5".data = .ok [("value".data, "5".data)] ∧
    ChannelServerQt.decode "value:5".data = .ok [] := ⟨rfl, rfl, rfl⟩

/-- C5 counterexample: subscribe to X while disconnected, then two connect
events with no intervening disconnect: `_connected_handler` replays the
registry unconditionally both times, so the subscribe command for X is
sent twice — the claimed absence of duplicate sends fails. -/
theorem spurious_connect_duplicates_subscribes :
    (v2kRun V2kState.init
      [.getChannel "X".data, .connected, .connected]).2 =
      [ChannelServerQt.subscribeLine "X".data,
       ChannelServerQt.subscribeLine "X".data] := rfl

/-- C5 amended: a connect event sends exactly one subscribe command per
channel in the registry, in registry (insertion) order; subscribing to a
new channel while disconnected sends nothing and appends it to the
registry; but a second connect event without an intervening disconnect
replays the whole registry again, duplicating every subscribe command. -/
theorem subscription_replay_on_connect :
    (∀ st : V2kState,
      (v2kStep st .connected).2 = st.subscNames.map ChannelServerQt.subscribeLine) ∧
    (∀ (st : V2kState) (name : List Char), st.isConnected = false → name ≠ [] →
      st.subscNames.contains name = false →
      v2kStep st (.getChannel name) =
        ({ st with subscNames := st.subscNames ++ [name] }, [])) ∧
    (∀ st : V2kState,
      (v2kRun st [.connected, .connected]).2 =
        st.subscNames.map ChannelServerQt.subscribeLine ++
          st.subscNames.map ChannelServerQt.subscribeLine) := by
  refine ⟨fun st => rfl, fun st name hconn hname hmem => ?_, fun st => ?_⟩
  · rw [v2kStep, if_neg hname, if_neg (by rw [hmem]; simp), hconn]
    simp
  · simp [v2kRun, v2kStep]

/-- C5 witness: the theorem applied at concrete inputs. -/
theorem subscription_replay_on_connect_witness :
    v2kStep ⟨false, 1, []⟩ (.getChannel "X".data) = (⟨false, 1, ["X".data]⟩, []) ∧
    (v2kStep ⟨true, 1, ["X".data, "Y".data]⟩ .connected).2 =
      ["X".data, "Y".data].map ChannelServerQt.subscribeLine :=
  ⟨subscription_replay_on_connect.2.1 ⟨false, 1, []⟩ "X".data rfl (by decide) rfl,
   subscription_replay_on_connect.1 ⟨true, 1, ["X".data, "Y".data]⟩⟩

/-- C6 counterexample: a gethistory response whose timestamps field splits
into two entries while its values field splits into one is forwarded to
the history callback as data, with the mismatched sequences as they are —
no malformed-response error is reported, refuting the claim. -/
theorem history_length_mismatch_forwarded :
    VCASClient.handleChannelHistory
      [("name".data, "ch".data), ("method".data, "gethistory".data),
       ("timestamps".data, "1,2".data), ("values".data, "7".data)] =
      some ⟨"ch".data, ["1".data, "2".data], ["7".data]⟩ := rfl

/-- C6 amended: for a gethistory response with a nonempty name and
nonempty timestamps and values fields, the client always splits both
fields on commas and forwards the two sequences to the history callback,
with no equal-length check of any kind. -/
theorem history_response_forwarded_unchecked
    (msgDict : PyDict (List Char)) (name ts vs : List Char)
    (hname : pyGetD msgDict "name".data [] = name) (hn : name ≠ [])
    (hts : pyGetD msgDict "timestamps".data [] = ts) (ht : ts ≠ [])
    (hvs : pyGetD msgDict "values".data [] = vs) (hv : vs ≠ []) :
    VCASClient.handleChannelHistory msgDict =
      some ⟨name, pySplit ',' ts, pySplit ',' vs⟩ := by
  unfold VCASClient.handleChannelHistory
  rw [hname, hts, hvs, if_pos hn, if_pos ⟨ht, hv⟩]

/-- C6 witness: the theorem applied at a concrete response whose two
sequences have lengths three and two. -/
theorem history_response_forwarded_unchecked_witness :
    VCASClient.handleChannelHistory
      [("name".data, "ch2".data), ("timestamps".data, "1,2,3".data),
       ("values".data, "5,6".data)] =
      some ⟨"ch2".data, ["1".data, "2".data, "3".data], ["5".data, "6".data]⟩ :=
  history_response_forwarded_unchecked _ "ch2".data "1,2,3".data "5,6".data
    rfl (by decide) rfl (by decide) rfl (by decide)

/-- C10: with the client connected, `get_channel_info` on a name present
in the channel-info cache emits the cached descriptor and sends no wire
command (the cache is left untouched, so the same descriptor is re-served
until cleared); on a nonempty name not in the cache it emits nothing and
sends exactly one getfull command; and `clear_cache` empties the cache. -/
theorem get_channel_info_cache_behaviour (cache : PyDict (PyDict (List Char)))
    (channelName : List Char) :
    (∀ info, pyGet cache channelName = some info → channelName ≠ [] →
      VCASClient.getChannelInfo true cache channelName = ⟨some info, [], info⟩) ∧
    (pyGet cache channelName = none → channelName ≠ [] →
      VCASClient.getChannelInfo true cache channelName =
        ⟨none, [VCASClient.sendCommandLine channelName "getfull".data []], []⟩) ∧
    VCASClient.clearCache cache = [] := by
  refine ⟨fun info hc hn => ?_, fun hc hn => ?_, rfl⟩
  · rw [VCASClient.getChannelInfo, if_neg (by simp [hn]), hc]
  · rw [VCASClient.getChannelInfo, if_neg (by simp [hn]), hc]

/-- C10 witness: the theorem applied at a concrete cache. -/
theorem get_channel_info_cache_behaviour_witness :
    VCASClient.getChannelInfo true [("ch".data, [("units".data, "V".data)])]
      "ch".data = ⟨some [("units".data, "V".data)], [], [("units".data, "V".data)]⟩ ∧
    VCASClient.getChannelInfo true [("ch".data, [("units".data, "V".data)])]
      "other".data =
      ⟨none, [VCASClient.sendCommandLine "other".data "getfull".data []], []⟩ :=
  ⟨(get_channel_info_cache_behaviour _ "ch".data).1 _ rfl (by decide),
   (get_channel_info_cache_behaviour _ "other".data).2.1 rfl (by decide)⟩

/-- C7: for a channel-list response carrying a nonempty val field other
than the literal none, the changed-list signal is emitted if and only if
the sorted new (parsed) list differs from the sorted previously stored
list: the length shortcut in `_channels_changed` is subsumed by the
sorted comparison, so the dedup is exactly order-insensitive. -/
theorem channels_list_dedup (channelsList : List (List Char))
    (msgDict : PyDict (List Char)) (val : List Char)
    (hval : pyGetD msgDict "val".data [] = val)
    (h1 : val ≠ []) (h2 : val ≠ "none".data) :
    ((VCASClient.handleChannelsList channelsList msgDict).1 = true ↔
      pySorted (VCASClient.parseChannels val) ≠ pySorted channelsList) := by
  unfold VCASClient.handleChannelsList
  rw [hval, if_pos ⟨h1, h2⟩]
  by_cases hch : VCASClient.channelsChanged channelsList (VCASClient.parseChannels val) = true
  · rw [if_pos hch]
    simpa [ne_comm] using (channelsChanged_true_iff channelsList (VCASClient.parseChannels val)).mp hch
  · rw [if_neg hch]
    simp only [Bool.false_eq_true, false_iff]
    intro hne
    exact hch ((channelsChanged_true_iff channelsList (VCASClient.parseChannels val)).mpr
      (fun heq => hne (by rw [heq])))

/-- C7 witness: the theorem applied at the spec test inputs — a pure
permutation of the stored list emits nothing, a membership change emits
the signal. -/
theorem channels_list_dedup_witness :
    (VCASClient.handleChannelsList ["a".data, "b".data, "c".data]
      [("val".data, "c,b,a".data)]).1 = false ∧
    (VCASClient.handleChannelsList ["a".data, "b".data, "c".data]
      [("val".data, "a,b".data)]).1 = true := by
  constructor
  · have h := channels_list_dedup ["a".data, "b".data, "c".data]
      [("val".data, "c,b,a".data)] "c,b,a".data rfl (by decide) (by decide)
    cases hb : (VCASClient.handleChannelsList ["a".data, "b".data, "c".data]
      [("val".data, "c,b,a".data)]).1
    · rfl
    · exact absurd (h.mp hb) (by decide)
  · exact (channels_list_dedup ["a".data, "b".data, "c".data]
      [("val".data, "a,b".data)] "a,b".data rfl (by decide) (by decide)).mpr (by decide)

/-- C8 counterexample: `ChannelServerQt._decode` is not total — on the
line abc, the single nonempty token has no colon, the tuple unpacking of
`token.split(":")` raises a ValueError and the decode aborts instead of
skipping the token. -/
theorem decode_raises_on_token_without_colon :
    ChannelServerQt.decode "abc".data = .error "abc".data := rfl

/-- C8 amended: `ChannelServerQt._decode` succeeds exactly on lines whose
nonempty pipe-separated tokens each split on colons into exactly two
parts (one colon per token) — other tokens raise a ValueError rather than
being skipped — while the viewer parse loop of
`VCASClient._process_message` is total and silently skips tokens without
a colon, so a token list with no colons yields the empty mapping, not an
error. -/
theorem decode_totality_contrast :
    (∀ line : List Char,
      (∀ t ∈ pySplit '|' line, t ≠ [] → (pySplit ':' t).length = 2) →
      (ChannelServerQt.decode line).isOk = true) ∧
    (∀ pairs : List (List Char),
      (∀ t ∈ pairs, pyHasChar ':' t = false) → pyParsePairs pairs [] = []) := by
  constructor
  · intro line h
    rw [ChannelServerQt.decode]
    have hok := decodeTokens_isOk (pySplit '|' line) [] h
    match hres : ChannelServerQt.decodeTokens (pySplit '|' line) [] with
    | .ok d => rfl
    | .error e => rw [hres] at hok; cases hok
  · intro pairs h
    induction pairs with
    | nil => rfl
    | cons t ts ih =>
      rw [pyParsePairs,
        pySplitOnce_eq_none_of_no_sep ':' t (h t (List.mem_cons_self t ts))]
      exact ih fun u hu => h u (List.mem_cons_of_mem t hu)

/-- C8 witness: the theorem applied at a concrete well-formed line and at
a concrete colon-free token list. -/
theorem decode_totality_contrast_witness :
    (ChannelServerQt.decode "a:1|b:2".data).isOk = true ∧
    pyParsePairs ["abc".data, "de".data] [] = [] :=
  ⟨decode_totality_contrast.1 "a:1|b:2".data (by decide),
   decode_totality_contrast.2 ["abc".data, "de".data] (by decide)⟩

/-- C9 counterexample: a subscribe command for a channel name absent from
the catalog is accepted by the mock server — the reply is the empty
success string, not the generic error response, and the unknown name is
even added to the subscription set of the client (no value is pushed). -/
theorem mock_subscribe_unknown_channel_accepted :
    (MockVCASServer.processCommand mockEnvSample mockCatalogSample []
      "method:subscribe|name:GHOST".data).response = [] ∧
    (MockVCASServer.processCommand mockEnvSample mockCatalogSample []
      "method:subscribe|name:GHOST".data).subs = ["GHOST".data] ∧
    (MockVCASServer.processCommand mockEnvSample mockCatalogSample []
      "method:subscribe|name:GHOST".data).pushed = [] := by decide

/-- C9 amended: for the methods get (with a name other than
ChannelsList), getfull, set and gethistory, a command naming a channel
absent from the catalog is answered with the generic error response
`value:error|descr:...` and leaves the catalog unchanged; a subscribe
command for an unknown channel instead returns the empty success reply
(still leaving the catalog unchanged, with nothing pushed). -/
theorem mock_unknown_channel_responses (env : MockEnv) (catalog : MockCatalog)
    (subs : List (List Char)) (name value duration : List Char)
    (hnone : pyGet catalog.details name = none) (hn : name ≠ []) :
    (name ≠ "ChannelsList".data →
      (MockVCASServer.dispatchCommand env catalog subs "get".data name value duration).response =
        MockVCASServer.errorResponse (MockVCASServer.notFoundText name) ∧
      (MockVCASServer.dispatchCommand env catalog subs "get".data name value duration).catalog =
        catalog) ∧
    ((MockVCASServer.dispatchCommand env catalog subs "getfull".data name value duration).response =
        MockVCASServer.errorResponse (MockVCASServer.notFoundText name) ∧
      (MockVCASServer.dispatchCommand env catalog subs "getfull".data name value duration).catalog =
        catalog) ∧
    ((MockVCASServer.dispatchCommand env catalog subs "set".data name value duration).response =
        MockVCASServer.errorResponse (MockVCASServer.notFoundText name) ∧
      (MockVCASServer.dispatchCommand env catalog subs "set".data name value duration).catalog =
        catalog) ∧
    ((MockVCASServer.dispatchCommand env catalog subs "gethistory".data name value duration).response =
        MockVCASServer.errorResponse (MockVCASServer.notFoundText name) ∧
      (MockVCASServer.dispatchCommand env catalog subs "gethistory".data name value duration).catalog =
        catalog) ∧
    ((MockVCASServer.dispatchCommand env catalog subs "subscribe".data name value duration).response =
        [] ∧
      (MockVCASServer.dispatchCommand env catalog subs "subscribe".data name value duration).catalog =
        catalog ∧
      (MockVCASServer.dispatchCommand env catalog subs "subscribe".data name value duration).pushed =
        []) := by
  refine ⟨fun hCL => ?_, ?_, ?_, ?_, ?_⟩
  · rw [MockVCASServer.dispatchCommand, if_neg (fun h => hCL h.2),
      if_neg (fun h => absurd h.1 (by decide)), if_pos ⟨rfl, hn⟩]
    exact ⟨by simp only [MockVCASServer.getChannelValue, hnone], rfl⟩
  · rw [MockVCASServer.dispatchCommand, if_neg (fun h => absurd h.1 (by decide)),
      if_pos ⟨rfl, hn⟩]
    exact ⟨by simp only [MockVCASServer.getChannelInfoResp, hnone], rfl⟩
  · rw [MockVCASServer.dispatchCommand, if_neg (fun h => absurd h.1 (by decide)),
      if_neg (fun h => absurd h.1 (by decide)), if_neg (fun h => absurd h.1 (by decide)),
      if_pos ⟨rfl, hn⟩]
    simp only [MockVCASServer.setChannelValue, hnone]
    simp
  · rw [MockVCASServer.dispatchCommand, if_neg (fun h => absurd h.1 (by decide)),
      if_neg (fun h => absurd h.1 (by decide)), if_neg (fun h => absurd h.1 (by decide)),
      if_neg (fun h => absurd h.1 (by decide)), if_pos ⟨rfl, hn⟩]
    exact ⟨by simp only [MockVCASServer.getChannelHistory, hnone], rfl⟩
  · rw [MockVCASServer.dispatchCommand, if_neg (fun h => absurd h.1 (by decide)),
      if_neg (fun h => absurd h.1 (by decide)), if_neg (fun h => absurd h.1 (by decide)),
      if_neg (fun h => absurd h.1 (by decide)), if_neg (fun h => absurd h.1 (by decide)),
      if_pos ⟨rfl, hn⟩]
    simp only [MockVCASServer.subscribeChannel, hnone]
    by_cases hc : name ∈ subs
    · simp [hc]
    · simp [hc]

/-- C9 witness: the theorem applied at the sample catalog and a concrete
unknown channel name. -/
theorem mock_unknown_channel_responses_witness :
    (MockVCASServer.dispatchCommand mockEnvSample mockCatalogSample []
      "getfull".data "GHOST".data [] "300".data).response =
      MockVCASServer.errorResponse (MockVCASServer.notFoundText "GHOST".data) ∧
    (MockVCASServer.dispatchCommand mockEnvSample mockCatalogSample []
      "get".data "GHOST".data [] "300".data).response =
      MockVCASServer.errorResponse (MockVCASServer.notFoundText "GHOST".data) :=
  ⟨(mock_unknown_channel_responses mockEnvSample mockCatalogSample []
      "GHOST".data [] "300".data (by decide) (by decide)).2.1.1,
   ((mock_unknown_channel_responses mockEnvSample mockCatalogSample []
      "GHOST".data [] "300".data (by decide) (by decide)).1 (by decide)).1⟩

theorem v2kReadLoop_leading_newline (rest : List Char) :
    v2kReadLoop ('\n' :: rest) = ([], '\n' :: rest) := by
  rw [v2kReadLoop]
  rw [dif_neg]
  intro h
  simp [List.indexOf_cons_self] at h

theorem vcasProcessBuffer_no_newline {buf : List Char} (h : '\n' ∉ buf) :
    vcasProcessBuffer buf = ([], buf) := by
  rw [vcasProcessBuffer, dif_neg (by simpa [pyHasChar] using h)]

theorem vcasProcessBuffer_cut {buf : List Char} (h : '\n' ∈ buf) :
    vcasProcessBuffer buf =
      ((if buf.take (buf.indexOf '\n') ≠ [] ∧ pyStrip (buf.take (buf.indexOf '\n')) ≠ []
        then pyStrip (buf.take (buf.indexOf '\n')) ::
          (vcasProcessBuffer (buf.drop (buf.indexOf '\n' + 1))).1
        else (vcasProcessBuffer (buf.drop (buf.indexOf '\n' + 1))).1),
       (vcasProcessBuffer (buf.drop (buf.indexOf '\n' + 1))).2) := by
  rw [vcasProcessBuffer, dif_pos (by simpa [pyHasChar] using h)]

theorem vcasProcessBuffer_spec (buf : List Char) :
    (vcasProcessBuffer buf).1 =
      ((specFrameSegments buf).1.map pyStrip).filter (fun l => l ≠ []) ∧
    (vcasProcessBuffer buf).2 = (specFrameSegments buf).2 := by
  induction buf using vcasProcessBuffer.induct with
  | case1 x h npos rest msgs leftover heq ih =>
    have hmem : '\n' ∈ x := by simpa [pyHasChar] using h
    have hrest : rest = x.drop (x.indexOf '\n' + 1) := rfl
    have ih1 := ih.1
    have ih2 := ih.2
    rw [hrest] at ih1 ih2
    rw [vcasProcessBuffer_cut hmem, specFrameSegments_cut hmem]
    refine ⟨?_, by simpa using ih2⟩
    by_cases hs : pyStrip (x.take (x.indexOf '\n')) = []
    · rw [if_neg (fun hc => hc.2 hs)]
      simp only [List.map_cons, List.filter_cons, hs]
      simpa using ih1
    · have hld : x.take (x.indexOf '\n') ≠ [] := fun he => hs (by rw [he]; rfl)
      rw [if_pos ⟨hld, hs⟩]
      simp only [List.map_cons, List.filter_cons]
      rw [if_pos (by simpa using hs)]
      simpa using ih1
  | case2 x h =>
    have hmem : '\n' ∉ x := by simpa [pyHasChar] using h
    rw [vcasProcessBuffer_no_newline hmem, specFrameSegments_no_newline hmem]
    simp

/-- C4 counterexample: the v2k read loop runs only while the first
newline is at a positive index, so on a buffer beginning with a newline
it emits nothing and the leftover buffer still contains newline bytes —
refuting the claim that every newline-terminated prefix is emitted and
that the leftover never holds a newline. -/
theorem v2k_reader_stalls_on_leading_newline :
    (v2kReadLoop ['\n', 'a', '\n']).1 = [] ∧
    pyHasChar '\n' (v2kReadLoop ['\n', 'a', '\n']).2 = true := by
  rw [v2kReadLoop_leading_newline ['a', '\n']]
  exact ⟨rfl, rfl⟩

/-- C4 amended: for the viewer frame reader `_process_buffer`, after any
feed the emitted messages are exactly the trimmed newline-terminated
segments of the accumulated stream that are nonempty after trimming (in
stream order), the leftover buffer is exactly the residue after the last
newline and contains no newline byte; the v2k read loop, by contrast,
stops at a buffer whose first character is a newline, leaving it intact. -/
theorem frame_reader_segments :
    (∀ buf : List Char,
      (vcasProcessBuffer buf).1 =
        ((specFrameSegments buf).1.map pyStrip).filter (fun l => l ≠ []) ∧
      (vcasProcessBuffer buf).2 = (specFrameSegments buf).2 ∧
      pyHasChar '\n' (vcasProcessBuffer buf).2 = false) ∧
    (∀ rest : List Char, v2kReadLoop ('\n' :: rest) = ([], '\n' :: rest)) := by
  constructor
  · intro buf
    obtain ⟨h1, h2⟩ := vcasProcessBuffer_spec buf
    refine ⟨h1, h2, ?_⟩
    rw [h2, pyHasChar_eq_false_iff]
    exact specFrameSegments_leftover_no_newline buf
  · exact v2kReadLoop_leading_newline
